import Mathlib

/-
Shallow embedding of the statement-extraction and reconciliation pipeline of
the Chrome-Extension-webgpu repository (src/src/popup.ts, src/src/background.ts
and the unnamed background source file src/unnamed/part_000).

Strings are modelled as plain lists of characters (List Char).  Indices are
code-point positions; the source manipulates UTF-16 indices, but every index
produced in the modelled code is consumed by the same code, so the two views
agree on all observable results.
-/

namespace PaymentExt

/-! ## Character-level helpers (JavaScript semantics) -/

/-- The whitespace set of JavaScript regular expressions (`\s` without the `u`
flag) and of `String.prototype.trim`: WhiteSpace plus LineTerminator. -/
def jsWhitespace (c : Char) : Bool :=
  c == '\t' || c == '\n' || c.toNat == 0x0B || c.toNat == 0x0C || c == '\r' ||
  c == ' ' || c.toNat == 0xA0 || c.toNat == 0x1680 ||
  (0x2000 ≤ c.toNat && c.toNat ≤ 0x200A) ||
  c.toNat == 0x2028 || c.toNat == 0x2029 || c.toNat == 0x202F ||
  c.toNat == 0x205F || c.toNat == 0x3000 || c.toNat == 0xFEFF

/-- Word characters for the regex `\b` boundary: `[A-Za-z0-9_]`. -/
def isWordChar (c : Char) : Bool :=
  (97 ≤ c.toNat && c.toNat ≤ 122) || (65 ≤ c.toNat && c.toNat ≤ 90) ||
  (48 ≤ c.toNat && c.toNat ≤ 57) || c == '_'

/-- ASCII lower-casing; this is exactly the case-folding a non-`u` JavaScript
regex with an all-ASCII pattern performs (non-ASCII characters never
canonicalize onto ASCII pattern characters). -/
def asciiLower (c : Char) : Char :=
  if 65 ≤ c.toNat && c.toNat ≤ 90 then Char.ofNat (c.toNat + 32) else c

/-- `String.prototype.trim`: strip leading and trailing JS whitespace. -/
def trimJS (l : List Char) : List Char :=
  (((l.dropWhile jsWhitespace).reverse).dropWhile jsWhitespace).reverse

/-- `s.split("\n")` on a character list. -/
def splitLines : List Char → List (List Char)
  | [] => [[]]
  | c :: rest =>
    let r := splitLines rest
    if c == '\n' then [] :: r
    else
      match r with
      | [] => [[c]]
      | x :: xs => (c :: x) :: xs

/-- Case-insensitive test that `pat` is a prefix of `l` (ASCII folding, the
semantics of a non-`u` `/…/i` regex with an ASCII pattern). -/
def ciStarts : List Char → List Char → Bool
  | [], _ => true
  | _ :: _, [] => false
  | p :: ps, c :: cs => (asciiLower p == asciiLower c) && ciStarts ps cs

/-- Case-sensitive test that `pat` is a prefix of `l` (used for
`String.prototype.split` with a string separator). -/
def litStarts : List Char → List Char → Bool
  | [], _ => true
  | _ :: _, [] => false
  | p :: ps, c :: cs => (p == c) && litStarts ps cs

/-- Index of the first position of `l` (also the end position) whose suffix
satisfies `p`; this is how a regex engine locates the leftmost match. -/
def firstPos (p : List Char → Bool) : List Char → Option Nat
  | [] => if p [] then some 0 else none
  | c :: rest =>
    if p (c :: rest) then some 0 else (firstPos p rest).map Nat.succ

/-- Case-insensitive substring containment, the meaning of
`/literal pattern/i.test(line)`. -/
def containsCI (pat l : List Char) : Bool := (firstPos (ciStarts pat) l).isSome

/-! ## Text Normalizer — `normalizeCurrencySymbols` (popup.ts 176-179,
part_000 71-73, background.ts 71-73)

`text.replace(/â\x82¹/g, "₹")`: replace every (left-to-right, non-overlapping)
occurrence of the three characters U+00E2 U+0082 U+00B9 by U+20B9. -/

/-- One scan of the replacement, with fuel realizing termination: each step
consumes at least one character, so `l.length` fuel never runs out. -/
def normStep : Nat → List Char → List Char
  | 0, l => l
  | _ + 1, [] => []
  | fuel + 1, c :: c2 :: c3 :: rest2 =>
    if c == 'â' && c2 == '\x82' && c3 == '¹' then
      '₹' :: normStep fuel rest2
    else
      c :: normStep fuel (c2 :: c3 :: rest2)
  | fuel + 1, c :: rest => c :: normStep fuel rest

def normalizeCurrencySymbols (l : List Char) : List Char := normStep l.length l

/-- The tail of the replaced pattern: the text starts with U+0082 U+00B9 (used
to reason about where a new occurrence of the pattern could arise). -/
def startsPat : List Char → Bool
  | d1 :: d2 :: _ => d1 == '\x82' && d2 == '¹'
  | _ => false


/-! ## Heuristic Summary Extractor — `parseBankSummary` (popup.ts 181-233,
part_000 131-167, background.ts 131-167; all three copies are identical) -/

/-- The literal of the marker regex `/summary[\s:]*\n*/i`. -/
def summaryTok : List Char := "summary".toList

/-- Consume the `[\s:]*\n*` part of the marker regex after the literal
`summary` (greedy; the trailing `\n*` can only match the empty string because
`[\s:]*` already consumed every newline). -/
def afterMarker (l : List Char) : List Char :=
  ((l.dropWhile (fun c => jsWhitespace c || c == ':')).dropWhile (fun c => c == '\n'))

/-- `/\bnote\b/i` matches at the head of `l`, where `prev` is the character
just before `l` (`none` at the start of the searched string). -/
def noteAt (prev : Option Char) : List Char → Bool
  | n :: o :: t :: e :: rest =>
    asciiLower n == 'n' && asciiLower o == 'o' && asciiLower t == 't' &&
    asciiLower e == 'e' &&
    (match prev with
     | none => true
     | some c => !(isWordChar c)) &&
    (match rest with
     | [] => true
     | r :: _ => !(isWordChar r))
  | _ => false

/-- `summaryPart.search(/\bnote\b/i)`: index of the first word-bounded,
case-insensitive occurrence of `note`. -/
def findNote (prev : Option Char) : List Char → Option Nat
  | [] => none
  | c :: rest =>
    if noteAt prev (c :: rest) then some 0
    else (findNote (some c) rest).map Nat.succ

/-- The three expected summary fields. -/
inductive FieldKey where
  | totalAmountDue
  | rewardsEarned
  | paymentDueDate
  deriving DecidableEq

/-- The heuristic summary: the `Record<string, string>` built by
`parseBankSummary`; its keys can only be the three expected field names, so it
is represented with one optional slot per field. -/
structure HeuristicSummary where
  totalAmountDue : Option (List Char)
  rewardsEarned : Option (List Char)
  paymentDueDate : Option (List Char)
  deriving DecidableEq

def HeuristicSummary.empty : HeuristicSummary := ⟨none, none, none⟩

def HeuristicSummary.set (s : HeuristicSummary) (k : FieldKey) (v : List Char) :
    HeuristicSummary :=
  match k with
  | .totalAmountDue => { s with totalAmountDue := some v }
  | .rewardsEarned => { s with rewardsEarned := some v }
  | .paymentDueDate => { s with paymentDueDate := some v }

/-- `expectedKeys.find(exp => exp.pattern.test(line))`: the first of the three
fixed label patterns that matches (case-insensitive substring). -/
def matchKey (line : List Char) : Option FieldKey :=
  if containsCI ("total amount due".toList) line then some .totalAmountDue
  else if containsCI ("rewards earned".toList) line then some .rewardsEarned
  else if containsCI ("payment due date".toList) line ||
          containsCI ("bill due date".toList) line then some .paymentDueDate
  else none

/-- The label/value scan of `parseBankSummary` (the `for` loop over `lines`).
On a label line the inner loop takes the first following non-empty line as the
value and restarts the outer scan just after it; if none exists the value is
the empty string and the outer scan continues with the very next line.  The
fuel argument only realizes termination: every step consumes at least one
line, so `lines.length` fuel is never exhausted. -/
def scanLinesF : Nat → HeuristicSummary → List (List Char) → HeuristicSummary
  | 0, acc, _ => acc
  | _ + 1, acc, [] => acc
  | fuel + 1, acc, line :: rest =>
    match matchKey line with
    | none => scanLinesF fuel acc rest
    | some k =>
      match rest.dropWhile (fun l => l.length == 0) with
      | [] => scanLinesF fuel (acc.set k (normalizeCurrencySymbols [])) rest
      | v :: rest2 => scanLinesF fuel (acc.set k (normalizeCurrencySymbols v)) rest2

def scanLines (acc : HeuristicSummary) (lines : List (List Char)) : HeuristicSummary :=
  scanLinesF lines.length acc lines

/-- Processing of the text after the summary marker: trim, cut at
`/\bnote\b/i`, split into trimmed non-empty lines, then scan. -/
def parseSummarySection (region : List Char) : HeuristicSummary :=
  let sp := trimJS region
  let sp2 :=
    match findNote none sp with
    | none => sp
    | some i => trimJS (sp.take i)
  let lines := ((splitLines sp2).map trimJS).filter (fun l => l.length > 0)
  scanLines HeuristicSummary.empty lines

/-- `parseBankSummary(emailText)`: locate the `/summary[\s:]*\n*/i` marker; if
absent return the empty mapping, otherwise process the text after the match. -/
def parseBankSummary (emailText : List Char) : HeuristicSummary :=
  match firstPos (ciStarts summaryTok) emailText with
  | none => HeuristicSummary.empty
  | some i => parseSummarySection (afterMarker ((emailText.drop i).drop 7))

/-! ## Numeric model — `parseFloat(x).toFixed(2)`

The source feeds decimal strings through the platform `parseFloat` and
`Number.prototype.toFixed(2)`.  Numbers are modelled as exact decimals
(`num * 10 ^ exp`), which coincides with the binary64 pipeline on every value
whose scaled decimal does not sit on a rounding boundary distorted by the
binary representation; all concrete inputs in this development are of that
kind.  `parseFloat` is modelled on decimal and exponent numerals (the
`Infinity` literal and hexadecimal forms are out of scope; on them the
modelled behaviour of the surrounding code is not used by any theorem). -/

def isDigit (c : Char) : Bool := 48 ≤ c.toNat && c.toNat ≤ 57

def digitsToNat (ds : List Char) : Nat :=
  ds.foldl (fun acc c => acc * 10 + (c.toNat - 48)) 0

/-- An exact decimal: the value `num * 10 ^ exp`. -/
structure JsNum where
  num : Int
  exp : Int
  deriving DecidableEq

/-- `parseFloat`: skip leading whitespace, optional sign, longest valid
decimal numeral prefix (integer digits, optional fraction, optional
exponent); `none` models `NaN`. -/
def parseFloatJS (l : List Char) : Option JsNum :=
  let l1 := l.dropWhile jsWhitespace
  let sl : Int × List Char :=
    match l1 with
    | '-' :: r => (-1, r)
    | '+' :: r => (1, r)
    | _ => (1, l1)
  let ip := sl.2.takeWhile isDigit
  let l3 := sl.2.dropWhile isDigit
  let fl : List Char × List Char :=
    match l3 with
    | '.' :: r => (r.takeWhile isDigit, r.dropWhile isDigit)
    | _ => ([], l3)
  if ip.length == 0 && fl.1.length == 0 then none
  else
    let expVal : Int :=
      match fl.2 with
      | e :: r =>
        if e == 'e' || e == 'E' then
          match r with
          | '-' :: r2 =>
            if (r2.takeWhile isDigit).length == 0 then 0
            else -(digitsToNat (r2.takeWhile isDigit) : Int)
          | '+' :: r2 =>
            if (r2.takeWhile isDigit).length == 0 then 0
            else (digitsToNat (r2.takeWhile isDigit) : Int)
          | _ =>
            if (r.takeWhile isDigit).length == 0 then 0
            else (digitsToNat (r.takeWhile isDigit) : Int)
        else 0
      | [] => 0
    some { num := sl.1 * (digitsToNat (ip ++ fl.1) : Int),
           exp := expVal - (fl.1.length : Int) }

/-- Decimal digits of a natural number (fuel-based, most significant first). -/
def natDigitsAux : Nat → Nat → List Char → List Char
  | 0, _, acc => acc
  | fuel + 1, n, acc =>
    if n < 10 then Char.ofNat (48 + n) :: acc
    else natDigitsAux fuel (n / 10) (Char.ofNat (48 + n % 10) :: acc)

def natToDigits (n : Nat) : List Char := natDigitsAux (n + 1) n []

/-- `Number.prototype.toFixed(2)`: sign of the value, then the integer
`n` closest to `|value| * 100` (ties to the larger `n`), printed with two
fraction digits; `NaN` prints as `"NaN"`. -/
def toFixed2 : Option JsNum → List Char
  | none => ['N', 'a', 'N']
  | some x =>
    let sgn : List Char := if x.num < 0 then ['-'] else []
    let a : Nat := x.num.natAbs
    let e2 : Int := x.exp + 2
    let m : Nat :=
      if 0 ≤ e2 then a * 10 ^ e2.toNat
      else (2 * a + 10 ^ e2.natAbs) / (2 * 10 ^ e2.natAbs)
    sgn ++ natToDigits (m / 100) ++
      '.' :: (if m % 100 < 10 then '0' :: natToDigits (m % 100)
              else natToDigits (m % 100))

/-- `x.replace(/[,]/g, '')`: delete every comma. -/
def stripCommas (l : List Char) : List Char := l.filter (fun c => !(c == ','))

/-- `parseFloat(x).toFixed(2).replace(/[,]/g, '')` — the amount normalization
of `updateMatchingRecord` (part_000 594-595). -/
def normalizedFixed (amt : List Char) : List Char :=
  stripCommas (toFixed2 (parseFloatJS amt))

/-! ## Record Store — the `summaries` object store of `PaymentSummariesDB` -/

/-- A record persisted in the `summaries` store. -/
structure StoredSummary where
  id : Nat
  DueDate : List Char
  totalAmountDue : List Char
  BankName : List Char
  paymentStatus : List Char
  summaryTimestamp : List Char
  deriving DecidableEq

/-- The payment data handed to the insert operations. -/
structure PaymentData where
  dueDate : List Char
  totalAmountDue : List Char
  bankName : List Char
  deriving DecidableEq

/-- The store plus the auto-increment key generator. -/
structure StoreState where
  records : List StoredSummary
  nextId : Nat
  deriving DecidableEq

def emptyStore : StoreState := { records := [], nextId := 1 }

/-- `savePaymentSummaryToIndexedDB` of popup.ts 97-134 and part_000 396-442:
normalize the new amount by stripping commas, compare the
(normalized amount, due date) pair against every stored record, and only when
no match exists add a record with the comma-stripped amount, trimmed bank
name and status `"unpaid"`. -/
def savePaymentSummaryDedup (st : StoreState) (pd : PaymentData) (ts : List Char) :
    StoreState :=
  let newTotal := stripCommas pd.totalAmountDue
  let newDue := pd.dueDate
  let isDup := st.records.any
    (fun s => stripCommas s.totalAmountDue == newTotal && s.DueDate == newDue)
  if isDup then st
  else
    { records := st.records ++
        [{ id := st.nextId, DueDate := newDue, totalAmountDue := newTotal,
           BankName := trimJS pd.bankName, paymentStatus := "unpaid".toList,
           summaryTimestamp := ts }],
      nextId := st.nextId + 1 }

/-- `savePaymentSummaryToIndexedDB` of background.ts 381-397: unconditional
`store.add` with no duplicate check, no comma stripping and no bank-name
trimming. -/
def savePaymentSummaryPlain (st : StoreState) (pd : PaymentData) (ts : List Char) :
    StoreState :=
  { records := st.records ++
      [{ id := st.nextId, DueDate := pd.dueDate, totalAmountDue := pd.totalAmountDue,
         BankName := pd.bankName, paymentStatus := "unpaid".toList,
         summaryTimestamp := ts }],
    nextId := st.nextId + 1 }

/-- The dedup key: (comma-stripped totalAmountDue, DueDate). -/
def dedupKey (s : StoredSummary) : List Char × List Char :=
  (stripCommas s.totalAmountDue, s.DueDate)

/-- `updateMatchingRecord(amount)` (part_000 584-612): for every stored
record, compare `parseFloat(totalAmountDue).toFixed(2).replace(/[,]/g,'')`
with the same normalization of `amount`; on a match, when the status is not
already `"paid"`, set it to `"paid"` and `put` the record back. -/
def updateMatchingRecord (summaries : List StoredSummary) (amount : List Char) :
    List StoredSummary :=
  let newTotal := normalizedFixed amount
  summaries.map (fun s =>
    if normalizedFixed s.totalAmountDue == newTotal &&
        !(s.paymentStatus == "paid".toList) then
      { s with paymentStatus := "paid".toList }
    else s)

/-- The store-mutating operations of the system: the two insert variants and
the reconciliation update.  No other code path writes to the store. -/
inductive StoreOp where
  | saveDedup (pd : PaymentData) (ts : List Char)
  | savePlain (pd : PaymentData) (ts : List Char)
  | reconcile (amount : List Char)

def applyOp (st : StoreState) : StoreOp → StoreState
  | .saveDedup pd ts => savePaymentSummaryDedup st pd ts
  | .savePlain pd ts => savePaymentSummaryPlain st pd ts
  | .reconcile amt => { st with records := updateMatchingRecord st.records amt }

def applyOps (st : StoreState) (ops : List StoreOp) : StoreState :=
  ops.foldl applyOp st

/-- A run of deduplicating inserts from the empty store. -/
def runDedupInserts (inputs : List (PaymentData × List Char)) : StoreState :=
  inputs.foldl (fun st i => savePaymentSummaryDedup st i.1 i.2) emptyStore

/-! ## Response Parser — the trailing-text cut and `JSON.parse`
(popup.ts 313-322, part_000 316-323 and 567-574, background.ts 317-324)

`JSON.parse` is a platform builtin; it is modelled here restricted to the
shape the callers consume: a single flat object whose keys and values are
strings (without `\uXXXX` escapes).  On any other input the model answers
`none`, exactly as the caller treats a thrown parse error. -/

def jsonWsChar (c : Char) : Bool :=
  c == ' ' || c == '\t' || c == '\n' || c == '\r'

/-- Decoding of a single-character JSON escape sequence. -/
def jsonEscape (e : Char) : Option Char :=
  match e with
  | '"' => some '"'
  | '\\' => some '\\'
  | '/' => some '/'
  | 'b' => some '\x08'
  | 'f' => some '\x0C'
  | 'n' => some '\n'
  | 'r' => some '\r'
  | 't' => some '\t'
  | _ => none

/-- Body of a JSON string after the opening quote; returns the decoded
content and the input after the closing quote. -/
def parseStringBody : List Char → Option (List Char × List Char)
  | [] => none
  | '"' :: rest => some ([], rest)
  | '\\' :: e :: rest =>
    match jsonEscape e with
    | none => none
    | some c =>
      match parseStringBody rest with
      | none => none
      | some (s, r) => some (c :: s, r)
  | c :: rest =>
    if c.toNat < 0x20 then none
    else
      match parseStringBody rest with
      | none => none
      | some (s, r) => some (c :: s, r)

/-- JavaScript object-property assignment on an association list: a repeated
key overwrites in place, a new key is appended. -/
def setKey (obj : List (List Char × List Char)) (k v : List Char) :
    List (List Char × List Char) :=
  match obj with
  | [] => [(k, v)]
  | (k0, v0) :: rest =>
    if k0 == k then (k0, v) :: rest else (k0, v0) :: setKey rest k v

/-- Members of a JSON object after the opening brace (fuel realizes
termination; every member consumes input). -/
def parseMembers : Nat → List (List Char × List Char) → List Char →
    Option (List (List Char × List Char) × List Char)
  | 0, _, _ => none
  | fuel + 1, acc, l =>
    match l.dropWhile jsonWsChar with
    | '"' :: rest =>
      match parseStringBody rest with
      | none => none
      | some (key, rest2) =>
        match rest2.dropWhile jsonWsChar with
        | ':' :: rest3 =>
          match rest3.dropWhile jsonWsChar with
          | '"' :: rest4 =>
            match parseStringBody rest4 with
            | none => none
            | some (value, rest5) =>
              match rest5.dropWhile jsonWsChar with
              | ',' :: rest6 => parseMembers fuel (setKey acc key value) rest6
              | '\x7d' :: rest6 => some (setKey acc key value, rest6)
              | _ => none
          | _ => none
        | _ => none
    | _ => none

/-- `JSON.parse` on a flat string-valued object (model restriction as above);
the whole input must be consumed up to trailing whitespace. -/
def jsonParseFlat (l : List Char) : Option (List (List Char × List Char)) :=
  match l.dropWhile jsonWsChar with
  | '\x7b' :: rest =>
    match rest.dropWhile jsonWsChar with
    | '\x7d' :: rest2 =>
      if (rest2.dropWhile jsonWsChar).isEmpty then some [] else none
    | _ =>
      match parseMembers (rest.length + 1) [] rest with
      | some (obj, rest2) =>
        if (rest2.dropWhile jsonWsChar).isEmpty then some obj else none
      | none => none
  | _ => none

/-- The literal cut marker of
`curMessage.split("This JSON format is provided for you")[0]`. -/
def jsonCutMarker : List Char := "This JSON format is provided for you".toList

/-- `curMessage.split(marker)[0].trim()`: the text before the first
occurrence of the marker (the whole text when absent), trimmed. -/
def extractJsonResponse (curMessage : List Char) : List Char :=
  trimJS
    (match firstPos (litStarts jsonCutMarker) curMessage with
     | none => curMessage
     | some i => curMessage.take i)

/-- The complete response-parsing step applied to the accumulated model
output: cut at the marker, trim, strict parse. -/
def parsePaymentResponse (curMessage : List Char) :
    Option (List (List Char × List Char)) :=
  jsonParseFlat (extractJsonResponse curMessage)

/-! ## Completion Consumer — the conversation history around each request
(popup.ts 289-294, part_000 289-304 and 554-557, background.ts 290-305) -/

structure ChatMsg where
  role : List Char
  content : List Char
  deriving DecidableEq

def userMsg (content : List Char) : ChatMsg := ⟨"user".toList, content⟩

/-- The two mutations the code applies to `chatHistory`. -/
inductive ChatOp where
  | clear
  | push (m : ChatMsg)

def applyChatOp (h : List ChatMsg) : ChatOp → List ChatMsg
  | .clear => []
  | .push m => h ++ [m]

def runChatOps (h : List ChatMsg) (ops : List ChatOp) : List ChatMsg :=
  ops.foldl applyChatOp h

/-- `summarizeEmail` in popup.ts (289-291): `chatHistory.length = 0` then
`chatHistory.push({role: "user", content: prompt})`, in that order, before
`engine.chat.completions.create({..., messages: chatHistory})`. -/
def summarizeEmailChatOpsPopup (prompt : List Char) : List ChatOp :=
  [.clear, .push (userMsg prompt)]

/-- The same sequence in `summarizeEmail` of part_000 (289, 302) and
background.ts (290, 303). -/
def summarizeEmailChatOpsBackground (prompt : List Char) : List ChatOp :=
  [.clear, .push (userMsg prompt)]

/-- The same sequence in `handlePaymentSuccess` of part_000 (554-555). -/
def handlePaymentSuccessChatOps (prompt : List Char) : List ChatOp :=
  [.clear, .push (userMsg prompt)]

/-! ## Orchestrator — `waitForEngine` (popup.ts 384-402, part_000 172-188,
background.ts 172-188; the three copies are identical) -/

/-- The `while (!engine && attempts < 10)` loop.  `obs n` is the engine
readiness observed when the condition is evaluated with `attempts = n`; the
result is the final value of `attempts`, which also counts the executed
`sleep(1000)` calls.  The fuel starts at `10 - attempts`, so the recursion is
structurally bounded exactly like the source loop. -/
def waitLoopAux (obs : Nat → Bool) : Nat → Nat → Nat
  | 0, attempts => attempts
  | fuel + 1, attempts =>
    if obs attempts then attempts else waitLoopAux obs fuel (attempts + 1)

/-- Outcome of one `waitForEngine` call. -/
structure WaitResult where
  sleeps : Nat
  initCalls : Nat
  engineReady : Bool
  deriving DecidableEq

/-- `waitForEngine`: poll up to 10 times with one `sleep(1000)` per
iteration; if the engine is still not ready, call `initializeEngine()` once
(`initSucceeds` tells whether that attempt leaves the engine set); finally
report readiness or failure. -/
def waitForEngine (obs : Nat → Bool) (initSucceeds : Bool) : WaitResult :=
  let finalAttempts := waitLoopAux obs 10 0
  if obs finalAttempts then
    { sleeps := finalAttempts, initCalls := 0, engineReady := true }
  else
    { sleeps := finalAttempts, initCalls := 1, engineReady := initSucceeds }

/-! ## Concrete inputs used by the claim theorems, witnesses and
counterexamples -/

/-- The C4 test email text. -/
def c4input : List Char :=
  "Summary:\nTotal Amount Due\n500\nNote: disclaimers here\nPayment Due Date\n01-01-2025".toList

/-- The C5 summary-section content. -/
def c5input : List Char :=
  "Total Amount Due\n\n1234.56\nRewards Earned\n10\n".toList

/-- The C6 witness email text (contains no `summary` token). -/
def c6input : List Char := "hello world".toList

/-- The C7 model output: a JSON record followed by the trailing explanatory
sentence. -/
def c7input : List Char :=
  "\x7b\"Due Date\":\"01-05-2025\",\"Total Amount Due\":\"100.00\",\"Bank Name\":\"X\"\x7dThis JSON format is provided for you for clarity.".toList

/-- C2 store: an unpaid record whose stored amount still carries a thousands
separator. -/
def c2rec1 : StoredSummary :=
  { id := 1, DueDate := "01-01-2025".toList, totalAmountDue := "1,234.00".toList,
    BankName := "X".toList, paymentStatus := "unpaid".toList,
    summaryTimestamp := "t1".toList }

/-- C2 store: an unpaid record with amount `1234.01`. -/
def c2rec2 : StoredSummary :=
  { id := 2, DueDate := "02-02-2025".toList, totalAmountDue := "1234.01".toList,
    BankName := "Y".toList, paymentStatus := "unpaid".toList,
    summaryTimestamp := "t2".toList }

/-- C1 witness store: one record stored by the deduplicating insert. -/
def c1wRec : StoredSummary :=
  { id := 1, DueDate := "01-01-2025".toList, totalAmountDue := "1234.00".toList,
    BankName := "X".toList, paymentStatus := "unpaid".toList,
    summaryTimestamp := "t1".toList }

def c1wStore : StoreState := { records := [c1wRec], nextId := 2 }

/-- C1 witness insert: same normalized pair as `c1wRec` (the comma is stripped
by the normalization). -/
def c1wPd : PaymentData :=
  { dueDate := "01-01-2025".toList, totalAmountDue := "1,234.00".toList,
    bankName := "X ".toList }

/-- C1 counterexample insert, run twice through the background.ts variant. -/
def c1xPd : PaymentData :=
  { dueDate := "01-01-2025".toList, totalAmountDue := "1234.00".toList,
    bankName := "X".toList }

/-- C10 witness: a record already marked paid. -/
def c10rec : StoredSummary :=
  { id := 1, DueDate := "01-01-2025".toList, totalAmountDue := "500.00".toList,
    BankName := "B".toList, paymentStatus := "paid".toList,
    summaryTimestamp := "t".toList }

def c10store : StoreState := { records := [c10rec], nextId := 2 }

/-- C10 witness operations: a reconciliation whose amount matches the paid
record, followed by a deduplicating insert. -/
def c10ops : List StoreOp :=
  [StoreOp.reconcile ("500".toList),
   StoreOp.saveDedup
     { dueDate := "02-02-2025".toList, totalAmountDue := "600".toList,
       bankName := "C".toList } ("t2".toList)]

/-! ## Theorems -/

/-- C4: on the email text `"Summary:\nTotal Amount Due\n500\nNote: disclaimers
here\nPayment Due Date\n01-01-2025"`, `parseBankSummary` cuts the summary
region at the word-bounded `note` before the due-date label, so no
`Payment Due Date` field is produced, while `Total Amount Due` is extracted
as `"500"`. -/
theorem c4_note_truncation :
    (parseBankSummary c4input).paymentDueDate = none ∧
    (parseBankSummary c4input).totalAmountDue = some ("500".toList) := by
  decide

/-- C5: on a summary section with content `"Total Amount Due\n\n1234.56\n
Rewards Earned\n10\n"`, extraction yields exactly the mapping
`Total Amount Due ↦ "1234.56"`, `Rewards Earned ↦ "10"`: the blank line
between label and value is skipped and the consumed value line `"1234.56"`
is not reused for the later `Rewards Earned` label. -/
theorem c5_value_skip :
    parseSummarySection c5input =
      { totalAmountDue := some ("1234.56".toList),
        rewardsEarned := some ("10".toList),
        paymentDueDate := none } := by
  decide

/-- C7: on the model output consisting of the JSON record followed by the
sentence `This JSON format is provided for you for clarity.`, the
response-parsing step (split at the marker, take the prefix, trim, strict
parse) succeeds and returns exactly the record with `Due Date` `01-05-2025`,
`Total Amount Due` `100.00` and `Bank Name` `X`. -/
theorem c7_parse_boundary :
    parsePaymentResponse c7input =
      some [("Due Date".toList, "01-05-2025".toList),
            ("Total Amount Due".toList, "100.00".toList),
            ("Bank Name".toList, "X".toList)] := by
  decide

/-- C2 (divergence witness): on a store holding an unpaid record with stored
amount `"1,234.00"` and an unpaid record with amount `"1234.01"`,
`updateMatchingRecord "1234"` changes nothing — in particular the
`"1,234.00"` record stays `"unpaid"`, because `parseFloat` stops at the comma
(yielding `"1.00"`) and the comma-strip runs only after `toFixed(2)`, where
it can never remove anything.  The claim (and §4.7/§8 of the spec) expect
that record to become `"paid"`. -/
theorem c2_reconciliation_mismatch :
    updateMatchingRecord [c2rec1, c2rec2] ("1234".toList) = [c2rec1, c2rec2] ∧
    c2rec1.paymentStatus = "unpaid".toList := by
  decide

/-- C8: each completion call site resets the conversation history and then
pushes the single user prompt, so whatever the prior history was, the message
list handed to the completion service is exactly the one user message built
from the current inputs. -/
theorem chat_history_stateless :
    ∀ (prior : List ChatMsg) (prompt : List Char),
      runChatOps prior (summarizeEmailChatOpsPopup prompt) = [userMsg prompt] ∧
      runChatOps prior (summarizeEmailChatOpsBackground prompt) = [userMsg prompt] ∧
      runChatOps prior (handlePaymentSuccessChatOps prompt) = [userMsg prompt] := by
  intro prior prompt
  refine ⟨rfl, rfl, rfl⟩

/-- The readiness loop executes at most `fuel` additional iterations. -/
theorem waitLoopAux_le (obs : Nat → Bool) :
    ∀ (fuel a : Nat), waitLoopAux obs fuel a ≤ fuel + a := by
  intro fuel
  induction fuel with
  | zero => intro a; simp [waitLoopAux]
  | succ f ih =>
    intro a
    by_cases h : obs a = true
    · simp [waitLoopAux, h]
      try omega
    · have h' : obs a = false := by
        cases hx : obs a
        · rfl
        · exact absurd hx h
      have := ih (a + 1)
      simp [waitLoopAux, h']
      try omega

/-- C9: `waitForEngine` performs at most 10 readiness polls (one
`sleep(1000)` per poll) and at most one re-initialization attempt, for every
possible engine-readiness behaviour; being a total function, it always
terminates with the engine either ready or in the reported-failure state. -/
theorem waitForEngine_bounded :
    ∀ (obs : Nat → Bool) (initSucceeds : Bool),
      (waitForEngine obs initSucceeds).sleeps ≤ 10 ∧
      (waitForEngine obs initSucceeds).initCalls ≤ 1 := by
  intro obs initSucceeds
  have hb : waitLoopAux obs 10 0 ≤ 10 := by
    have := waitLoopAux_le obs 10 0
    omega
  unfold waitForEngine
  by_cases h : obs (waitLoopAux obs 10 0) = true
  · simp [h, hb]
  · have h' : obs (waitLoopAux obs 10 0) = false := by
      cases hx : obs (waitLoopAux obs 10 0)
      · rfl
      · exact absurd hx h
    simp [h', hb]

/-- If no position of `l` satisfies `p`, and neither does the empty suffix,
the leftmost-match search fails. -/
theorem firstPos_eq_none (p : List Char → Bool) (hnil : p [] = false) :
    ∀ l : List Char, (∀ i, i < l.length → p (l.drop i) = false) →
      firstPos p l = none := by
  intro l
  induction l with
  | nil => intro _; simp [firstPos, hnil]
  | cons c rest ih =>
    intro h
    have h0 : p (c :: rest) = false := by
      have := h 0 (by simp)
      simpa using this
    have hrest : ∀ i, i < rest.length → p (rest.drop i) = false := by
      intro i hi
      have := h (i + 1) (by simp; omega)
      simpa using this
    simp [firstPos, h0, ih hrest]

/-- C6: on any email text in which the token `summary` occurs at no position
(case-insensitively), `parseBankSummary` returns the empty mapping.  It is a
total function of the text — in this embedding totality holds by
construction, matching the source, which throws on no input. -/
theorem parseBankSummary_no_marker (l : List Char)
    (h : ∀ i, i < l.length → ciStarts summaryTok (l.drop i) = false) :
    parseBankSummary l = HeuristicSummary.empty := by
  unfold parseBankSummary
  rw [firstPos_eq_none (ciStarts summaryTok) (by decide) l h]

/-- C6 witness: the text `"hello world"` contains no `summary` token and is
mapped to the empty summary. -/
theorem parseBankSummary_no_marker_witness :
    (∀ i, i < c6input.length → ciStarts summaryTok (c6input.drop i) = false) ∧
    parseBankSummary c6input = HeuristicSummary.empty :=
  ⟨by decide, parseBankSummary_no_marker c6input (by decide)⟩

/-- Stripping commas is idempotent, so a stored (already stripped) amount
normalizes to itself. -/
theorem stripCommas_idem (l : List Char) :
    stripCommas (stripCommas l) = stripCommas l := by
  simp [stripCommas, List.filter_filter]

/-- One deduplicating insert preserves distinctness of the dedup keys. -/
theorem saveDedup_preserves (st : StoreState) (pd : PaymentData) (ts : List Char)
    (h : List.Pairwise (fun a b => dedupKey a ≠ dedupKey b) st.records) :
    List.Pairwise (fun a b => dedupKey a ≠ dedupKey b)
      (savePaymentSummaryDedup st pd ts).records := by
  unfold savePaymentSummaryDedup
  by_cases hd : (st.records.any
      (fun s => stripCommas s.totalAmountDue == stripCommas pd.totalAmountDue &&
        s.DueDate == pd.dueDate)) = true
  · simpa [hd] using h
  · have hd' : ∀ s ∈ st.records,
        ¬(stripCommas s.totalAmountDue = stripCommas pd.totalAmountDue ∧
          s.DueDate = pd.dueDate) := by
      intro s hs hcontra
      apply hd
      rw [List.any_eq_true]
      exact ⟨s, hs, by simp [hcontra.1, hcontra.2]⟩
    have hd2 : (st.records.any
        (fun s => stripCommas s.totalAmountDue == stripCommas pd.totalAmountDue &&
          s.DueDate == pd.dueDate)) = false := by
      cases hx : (st.records.any
          (fun s => stripCommas s.totalAmountDue == stripCommas pd.totalAmountDue &&
            s.DueDate == pd.dueDate))
      · rfl
      · exact absurd hx hd
    simp only [hd2, Bool.false_eq_true, if_false]
    rw [List.pairwise_append]
    refine ⟨h, by simp, ?_⟩
    intro a ha b hb
    simp only [List.mem_singleton] at hb
    subst hb
    intro hk
    apply hd' a ha
    have h1 : dedupKey a =
        (stripCommas pd.totalAmountDue, pd.dueDate) := by
      rw [hk]
      simp [dedupKey, stripCommas_idem]
    constructor
    · have := congrArg Prod.fst h1
      simpa [dedupKey] using this
    · have := congrArg Prod.snd h1
      simpa [dedupKey] using this

/-- Any sequence of deduplicating inserts preserves the invariant. -/
theorem runDedup_pairwise (inputs : List (PaymentData × List Char)) :
    ∀ st : StoreState,
      List.Pairwise (fun a b => dedupKey a ≠ dedupKey b) st.records →
      List.Pairwise (fun a b => dedupKey a ≠ dedupKey b)
        (inputs.foldl (fun st i => savePaymentSummaryDedup st i.1 i.2) st).records := by
  induction inputs with
  | nil => intro st h; simpa using h
  | cons i rest ih =>
    intro st h
    simp only [List.foldl_cons]
    exact ih _ (saveDedup_preserves st i.1 i.2 h)

/-- C1 (amended): for the deduplicating `savePaymentSummaryToIndexedDB`
(popup.ts and part_000), every sequence of inserts starting from the empty
store yields a store whose records have pairwise distinct
(comma-stripped totalAmountDue, DueDate) keys, and an insert whose normalized
pair equals that of an existing record leaves the store unchanged. -/
theorem dedup_store_invariant :
    (∀ inputs : List (PaymentData × List Char),
      List.Pairwise (fun a b => dedupKey a ≠ dedupKey b)
        (runDedupInserts inputs).records) ∧
    (∀ (st : StoreState) (pd : PaymentData) (ts : List Char),
      (∃ s ∈ st.records,
        stripCommas s.totalAmountDue = stripCommas pd.totalAmountDue ∧
        s.DueDate = pd.dueDate) →
      savePaymentSummaryDedup st pd ts = st) := by
  constructor
  · intro inputs
    exact runDedup_pairwise inputs emptyStore (by simp [emptyStore])
  · intro st pd ts h
    obtain ⟨s, hs, h1, h2⟩ := h
    have hd : (st.records.any
        (fun s => stripCommas s.totalAmountDue == stripCommas pd.totalAmountDue &&
          s.DueDate == pd.dueDate)) = true := by
      rw [List.any_eq_true]
      exact ⟨s, hs, by simp [h1, h2]⟩
    unfold savePaymentSummaryDedup
    simp [hd]

/-- C1 witness: a store holding the record `(1234.00, 01-01-2025)` rejects an
insert of `("1,234.00", "01-01-2025")`, whose comma-stripped pair matches. -/
theorem dedup_store_invariant_witness :
    (∃ s ∈ c1wStore.records,
      stripCommas s.totalAmountDue = stripCommas c1wPd.totalAmountDue ∧
      s.DueDate = c1wPd.dueDate) ∧
    savePaymentSummaryDedup c1wStore c1wPd ("t2".toList) = c1wStore :=
  ⟨by decide, dedup_store_invariant.2 c1wStore c1wPd ("t2".toList) (by decide)⟩

/-- C1 counterexample: the claim as stated quantifies over
`savePaymentSummaryToIndexedDB` calls including the background.ts variant,
which performs no duplicate check: two inserts of the same payment data from
the empty store produce two records with the same
(comma-stripped totalAmountDue, DueDate) pair. -/
theorem dedup_store_counterexample :
    ¬ List.Pairwise (fun a b => dedupKey a ≠ dedupKey b)
        (savePaymentSummaryPlain
          (savePaymentSummaryPlain emptyStore c1xPd ("t1".toList))
          c1xPd ("t2".toList)).records := by
  decide

/-- A single store operation never removes or rewrites an already-paid
record: both insert variants only append, and the reconciliation update
rewrites only records whose status is not `"paid"` (and then only to
`"paid"`). -/
theorem applyOp_paid (st : StoreState) (op : StoreOp) (r : StoredSummary)
    (hr : r ∈ st.records) (hp : r.paymentStatus = "paid".toList) :
    r ∈ (applyOp st op).records := by
  cases op with
  | saveDedup pd ts =>
    unfold applyOp savePaymentSummaryDedup
    by_cases hd : (st.records.any
        (fun s => stripCommas s.totalAmountDue == stripCommas pd.totalAmountDue &&
          s.DueDate == pd.dueDate)) = true
    · simpa [hd] using hr
    · have hd2 : (st.records.any
          (fun s => stripCommas s.totalAmountDue == stripCommas pd.totalAmountDue &&
            s.DueDate == pd.dueDate)) = false := by
        cases hx : (st.records.any
            (fun s => stripCommas s.totalAmountDue == stripCommas pd.totalAmountDue &&
              s.DueDate == pd.dueDate))
        · rfl
        · exact absurd hx hd
      simp only [hd2, Bool.false_eq_true, if_false]
      exact List.mem_append_left _ hr
  | savePlain pd ts =>
    unfold applyOp savePaymentSummaryPlain
    exact List.mem_append_left _ hr
  | reconcile amt =>
    simp only [applyOp]
    unfold updateMatchingRecord
    rw [List.mem_map]
    refine ⟨r, hr, ?_⟩
    simp [hp]

/-- C10: paid status is monotone — on every store state, a record already
marked `"paid"` survives, unchanged, any sequence of system store operations
(the two insert variants and `updateMatchingRecord`); in particular its
status is never set back to `"unpaid"`. -/
theorem paid_status_monotone (st : StoreState) (ops : List StoreOp)
    (r : StoredSummary) (hr : r ∈ st.records)
    (hp : r.paymentStatus = "paid".toList) :
    r ∈ (applyOps st ops).records := by
  induction ops generalizing st with
  | nil => simpa [applyOps] using hr
  | cons op rest ih =>
    simp only [applyOps, List.foldl_cons]
    exact ih (applyOp st op) (applyOp_paid st op r hr hp)

/-- C10 witness: a paid record survives a matching reconciliation followed by
an insert. -/
theorem paid_status_monotone_witness :
    (c10rec ∈ c10store.records ∧ c10rec.paymentStatus = "paid".toList) ∧
    c10rec ∈ (applyOps c10store c10ops).records :=
  ⟨⟨by decide, by decide⟩,
   paid_status_monotone c10store c10ops c10rec (by decide) (by decide)⟩

theorem normStep_nil : ∀ f : Nat, normStep f [] = [] := by
  intro f; cases f <;> rfl

theorem normStep_single : ∀ (f : Nat) (c : Char), normStep f [c] = [c] := by
  intro f c
  cases f with
  | zero => rfl
  | succ f => show c :: normStep f [] = [c]; rw [normStep_nil]

theorem normStep_fuel : ∀ (f1 f2 : Nat) (l : List Char),
    l.length ≤ f1 → l.length ≤ f2 → normStep f1 l = normStep f2 l := by
  intro f1
  induction f1 with
  | zero =>
    intro f2 l h1 _
    have hl : l = [] := by cases l <;> simp_all
    subst hl
    rw [normStep_nil, normStep_nil]
  | succ f ih =>
    intro f2 l h1 h2
    cases l with
    | nil => rw [normStep_nil, normStep_nil]
    | cons c rest =>
      cases f2 with
      | zero => simp at h2
      | succ f2 =>
        cases rest with
        | nil => rw [normStep_single, normStep_single]
        | cons c2 rest1 =>
          cases rest1 with
          | nil =>
            show c :: normStep f [c2] = c :: normStep f2 [c2]
            rw [normStep_single, normStep_single]
          | cons c3 rest2 =>
            simp only [List.length_cons] at h1 h2
            show (if c == 'â' && c2 == '\x82' && c3 == '¹' then
                    '₹' :: normStep f rest2
                  else c :: normStep f (c2 :: c3 :: rest2)) =
                 (if c == 'â' && c2 == '\x82' && c3 == '¹' then
                    '₹' :: normStep f2 rest2
                  else c :: normStep f2 (c2 :: c3 :: rest2))
            by_cases hc : (c == 'â' && c2 == '\x82' && c3 == '¹') = true
            · rw [if_pos hc, if_pos hc]
              rw [ih f2 rest2 (by omega) (by omega)]
            · rw [if_neg hc, if_neg hc]
              rw [ih f2 (c2 :: c3 :: rest2) (by simp; omega) (by simp; omega)]

theorem norm_two (c c2 : Char) : normalizeCurrencySymbols [c, c2] = [c, c2] := rfl

theorem norm_cons3 (c c2 c3 : Char) (r : List Char) :
    normalizeCurrencySymbols (c :: c2 :: c3 :: r) =
      if c == 'â' && c2 == '\x82' && c3 == '¹' then
        '₹' :: normalizeCurrencySymbols r
      else c :: normalizeCurrencySymbols (c2 :: c3 :: r) := by
  show normStep (c :: c2 :: c3 :: r).length (c :: c2 :: c3 :: r) = _
  have hlen : (c :: c2 :: c3 :: r).length = (r.length + 2) + 1 := by simp
  rw [hlen]
  show (if c == 'â' && c2 == '\x82' && c3 == '¹' then
          '₹' :: normStep (r.length + 2) r
        else c :: normStep (r.length + 2) (c2 :: c3 :: r)) = _
  rw [normStep_fuel (r.length + 2) r.length r (by omega) (le_refl _)]
  rw [normStep_fuel (r.length + 2) (c2 :: c3 :: r).length (c2 :: c3 :: r)
        (by simp) (le_refl _)]
  rfl

theorem norm_nil2 : normalizeCurrencySymbols [] = [] := rfl

theorem norm_single2 (c : Char) : normalizeCurrencySymbols [c] = [c] := rfl

theorem norm_cons_eq (c : Char) (t : List Char)
    (h : (c == 'â' && startsPat t) = false) :
    normalizeCurrencySymbols (c :: t) = c :: normalizeCurrencySymbols t := by
  match t with
  | [] => rfl
  | [d] => rfl
  | d1 :: d2 :: ds =>
    rw [norm_cons3]
    have hc : (c == 'â' && d1 == '\x82' && d2 == '¹') = false := by
      simp only [startsPat] at h
      cases hb : (c == 'â') <;> cases hb2 : (d1 == '\x82') <;>
        cases hb3 : (d2 == '¹') <;> simp_all
    rw [if_neg (by simp [hc])]

theorem startsPat_norm (t : List Char)
    (h : startsPat (normalizeCurrencySymbols t) = true) : startsPat t = true := by
  match t with
  | [] => rw [norm_nil2] at h; simp [startsPat] at h
  | [c] => rw [norm_single2] at h; simp [startsPat] at h
  | [c, c2] => rw [norm_two] at h; exact h
  | c :: c2 :: c3 :: r =>
    rw [norm_cons3] at h
    by_cases hc : (c == 'â' && c2 == '\x82' && c3 == '¹') = true
    · exfalso
      rw [if_pos hc] at h
      cases hnr : normalizeCurrencySymbols r with
      | nil => rw [hnr] at h; simp [startsPat] at h
      | cons d ds =>
        rw [hnr] at h
        have hne : ('₹' == '\x82') = false := by decide
        simp [startsPat, hne] at h
    · rw [if_neg hc] at h
      cases r with
      | nil =>
        rw [norm_two] at h
        exact h
      | cons r0 rs =>
        rw [norm_cons3] at h
        by_cases hc2 : (c2 == 'â' && c3 == '\x82' && r0 == '¹') = true
        · exfalso
          rw [if_pos hc2] at h
          have hne : ('₹' == '¹') = false := by decide
          simp [startsPat, hne] at h
        · rw [if_neg hc2] at h
          simp only [startsPat] at h ⊢
          exact h

theorem norm_idem_aux : ∀ (n : Nat) (l : List Char), l.length ≤ n →
    normalizeCurrencySymbols (normalizeCurrencySymbols l) =
      normalizeCurrencySymbols l := by
  intro n
  induction n with
  | zero =>
    intro l h
    have hl : l = [] := by cases l <;> simp_all
    subst hl; rfl
  | succ n ih =>
    intro l hl
    match l with
    | [] => rfl
    | [c] => rfl
    | [c, c2] => rw [norm_two, norm_two]
    | c :: c2 :: c3 :: r =>
      rw [norm_cons3]
      by_cases hc : (c == 'â' && c2 == '\x82' && c3 == '¹') = true
      · rw [if_pos hc]
        have hne : ('₹' == 'â') = false := by decide
        rw [norm_cons_eq '₹' (normalizeCurrencySymbols r) (by simp [hne])]
        rw [ih r (by simp at hl; omega)]
      · rw [if_neg hc]
        have hok : (c == 'â' &&
            startsPat (normalizeCurrencySymbols (c2 :: c3 :: r))) = false := by
          by_cases hs :
              startsPat (normalizeCurrencySymbols (c2 :: c3 :: r)) = true
          · have h2 := startsPat_norm _ hs
            simp only [startsPat] at h2
            cases hb : (c == 'â')
            · simp [hb]
            · exfalso
              apply hc
              cases hb2 : (c2 == '\x82') <;> cases hb3 : (c3 == '¹') <;>
                simp_all
          · have hs' :
                startsPat (normalizeCurrencySymbols (c2 :: c3 :: r)) = false := by
              cases hx : startsPat (normalizeCurrencySymbols (c2 :: c3 :: r))
              · rfl
              · exact absurd hx hs
            simp [hs']
        rw [norm_cons_eq c _ hok]
        rw [ih (c2 :: c3 :: r) (by simp at hl ⊢; omega)]

/-- C3: the Text Normalizer is idempotent — for every text,
`normalizeCurrencySymbols (normalizeCurrencySymbols x) =
normalizeCurrencySymbols x`: one pass removes every occurrence of the garbled
sequence and the replacement character can never create a new occurrence. -/
theorem normalize_idempotent (l : List Char) :
    normalizeCurrencySymbols (normalizeCurrencySymbols l) =
      normalizeCurrencySymbols l :=
  norm_idem_aux l.length l (le_refl _)

end PaymentExt
